import Mathlib

/-!
# Verification of the SAFE-T equity-audit frontend and metric formulas

Shallow embedding of the computational parts of the SAFE-T repository
(safe-t-ai.github.io): the Durham map colour scale, the overview
dashboard's quantile/quintile computation, the volume-audit chart
computations, the report field shapes declared in `types.d.ts`, and the
equity-metric formulas documented in `TEST3_METHODOLOGY.md`.  JavaScript
numbers are modelled as exact rationals, with explicit constructors for
the non-finite values (`NaN`, `Infinity`) where the code can produce or
compare against them.  Fallible JavaScript code (property access on
`null`) is modelled with `Except`.
-/

/-- A JavaScript number as it flows through the map/chart code: a finite
numeric value (modelled exactly as a rational), `NaN`, `Infinity` or
`-Infinity`. -/
inductive JSNum where
  | num (q : ℚ)
  | nan
  | inf
  | ninf
deriving DecidableEq, Repr

/-- An upper bound in a colour-scale entry: a finite number or `Infinity`
(the final entry of `DurhamMap.getDefaultColorScale` uses `Infinity`). -/
inductive ScaleMax where
  | fin (q : ℚ)
  | inf
deriving DecidableEq, Repr

/-- JavaScript comparison `value <= max` for a number against a scale
bound: any comparison involving `NaN` is `false`; every finite value is
`<= Infinity`. -/
def jsLe : JSNum → ScaleMax → Bool
  | .nan, _ => false
  | .num _, .inf => true
  | .num q, .fin m => decide (q ≤ m)
  | .inf, .fin _ => false
  | .inf, .inf => true
  | .ninf, _ => true

/-- One entry of a Leaflet colour scale, as in
`DurhamMap.getDefaultColorScale`: `{ max, color, label }`. -/
structure ScaleEntry where
  max : ScaleMax
  color : String
  label : String
deriving DecidableEq, Repr

/-- `DurhamMap.getDefaultColorScale` from
`src/frontend/src/components/common/DurhamMap.js`, verbatim. -/
def getDefaultColorScale : List ScaleEntry :=
  [ { max := .fin (-20), color := "#b35806", label := "< -20% (severe undercount)" },
    { max := .fin (-10), color := "#f1a340", label := "-20% to -10%" },
    { max := .fin (-5),  color := "#fee0b6", label := "-10% to -5%" },
    { max := .fin 5,     color := "#d8daeb", label := "-5% to +5% (accurate)" },
    { max := .fin 10,    color := "#998ec3", label := "+5% to +10%" },
    { max := .inf,       color := "#542788", label := "> +10% (overcount)" } ]

/-- `DurhamMap.getColor(value, colorScale)`: `null`/`undefined` maps to
the gray no-data colour; otherwise the loop returns the colour of the
first entry whose `max` satisfies `value <= max`, and the trailing
statement returns the last entry's colour when no entry matched (an
empty scale would throw in JavaScript; it is never passed one). -/
def getColor (value : Option JSNum) (colorScale : List ScaleEntry) : String :=
  match value with
  | none => "#c7c7cc"
  | some v =>
    match colorScale.find? (fun e => jsLe v e.max) with
    | some e => e.color
    | none =>
      match colorScale.getLast? with
      | some e => e.color
      | none => "#c7c7cc"

/-!
## Overview dashboard: quantile breaks and quintile cut positions

`OverviewDashboard.renderMap` (src/frontend/src/OverviewDashboard.js)
sorts the non-null median incomes ascending and computes
`quantile(arr, q) = arr[Math.floor(arr.length * q)]` at
`q ∈ {0.2, 0.4, 0.6, 0.8}`.
-/

/-- `quantile(arr, q) = arr[Math.floor(arr.length * q)]` from
`OverviewDashboard.renderMap`; an out-of-range index is JavaScript
`undefined`, modelled as `none`. -/
def quantile (arr : List ℚ) (q : ℚ) : Option ℚ :=
  arr.get? (Int.toNat ⌊(arr.length : ℚ) * q⌋)

/-- The four quantile probabilities `[0.2, 0.4, 0.6, 0.8]` mapped over in
`renderMap`. -/
def breakProbs : List ℚ := [1/5, 2/5, 3/5, 4/5]

/-- The income breaks `[0.2, 0.4, 0.6, 0.8].map(q => quantile(incomes, q))`. -/
def overviewBreaks (incomes : List ℚ) : List (Option ℚ) :=
  breakProbs.map (fun q => quantile incomes q)

/-- The quantile cut position used by the overview map for stratum `k` of
`c` over `n` sorted entities: `Math.floor(n * (k/c)) = (k*n)/c` (natural
division).  For `c = 5` these are exactly the indices at which
`renderMap` reads its quintile breaks. -/
def cutPoint (n c k : ℕ) : ℕ :=
  k * n / c

/-- Size of stratum `k` under the quantile-position cut: the number of
sorted positions in `[cutPoint n c k, cutPoint n c (k+1))`. -/
def strataSize (n c k : ℕ) : ℕ :=
  cutPoint n c (k + 1) - cutPoint n c k

/-- The equal-count stratification induced by the quantile cut positions:
stratum `k` is the slice of the (already attribute-sorted) list between
cut positions `k` and `k+1`. -/
def strataOf (xs : List ℚ) (c : ℕ) : List (List ℚ) :=
  (List.range c).map
    (fun k => (xs.drop (cutPoint xs.length c k)).take (strataSize xs.length c k))

/-- The stratifier applied to an unsorted attribute list: sort ascending
(as `renderMap` does with `.sort((a, b) => a - b)`, a stable sort) and
cut at the quantile positions. -/
def stratify (xs : List ℚ) (c : ℕ) : List (List ℚ) :=
  strataOf (xs.insertionSort (· ≤ ·)) c

/-!
## Volume estimation audit (src/frontend/src/VolumeEstimationAudit.js)

`renderErrorStripChart` computes, for every scatter point,
`errorPct = (d.predicted_volume - d.true_volume) / d.true_volume * 100`
with no guard on `d.true_volume`; `renderMetrics` renders the
`r_squared` metric card with `r_squared.toFixed(3)` and classifies it
with `r_squared > 0.7 ? 'Strong correlation' : 'Weak correlation'`.
-/

/-- JavaScript division `a / b` on finite operands: ordinary rational
division for `b ≠ 0`, and `Infinity`, `-Infinity` or `NaN` (never an
exception) when `b = 0`. -/
def jsDiv (a b : ℚ) : JSNum :=
  if b ≠ 0 then .num (a / b)
  else if 0 < a then .inf
  else if a < 0 then .ninf
  else .nan

/-- JavaScript multiplication of a possibly non-finite value by a
positive finite constant (`* 100` in the chart code): scales a finite
value and preserves the non-finite values. -/
def jsMulPos (x : JSNum) (c : ℚ) : JSNum :=
  match x with
  | .num q => .num (q * c)
  | .nan => .nan
  | .inf => .inf
  | .ninf => .ninf

/-- The per-counter percent error of `renderErrorStripChart`:
`(d.predicted_volume - d.true_volume) / d.true_volume * 100`, computed
for a `(truth, prediction)` pair. -/
def stripErrorPct (truth pred : ℚ) : JSNum :=
  jsMulPos (jsDiv (pred - truth) truth) 100

/-- The data points the strip chart builds: one `errorPct` entry per
scatter point, with no exclusion of zero-truth pairs (the `reduce` in
`renderErrorStripChart` pushes an entry for every element of
`scatter_data`). -/
def stripErrorPoints (data : List (ℚ × ℚ)) : List JSNum :=
  data.map (fun d => stripErrorPct d.1 d.2)

/-- The `r_squared` metric card of `VolumeEstimationAudit.renderMetrics`:
`value` is `r_squared.toFixed(3)` and `subtext` is
`r_squared > 0.7 ? 'Strong correlation' : 'Weak correlation'`.  On a
`null` metric the property list throws a `TypeError` while evaluating
`null.toFixed(3)`, before the subtext is computed, so no card is
produced; the value is kept as an exact rational (decimal formatting is
presentation only). -/
def renderRSquaredCard (rSquared : Option ℚ) : Except String (ℚ × String) :=
  match rSquared with
  | none => .error "TypeError"
  | some r => .ok (r, if 7/10 < r then "Strong correlation" else "Weak correlation")

/-- JavaScript numeric coercion of `null` (`Number(null) = 0`): this is
the value `null` acts as inside the comparison `r_squared > 0.7` of the
subtext expression. -/
def jsNullToNumber : ℚ := 0

/-- The classification expression of the `r_squared` card in isolation:
`r > 0.7 ? 'Strong correlation' : 'Weak correlation'`. -/
def classifyRSquared (r : ℚ) : String :=
  if 7/10 < r then "Strong correlation" else "Weak correlation"

/-!
## Metric Calculator: `mape` (modelled from the spec)

The engine's Metric Calculator is not part of the repository checkout
(only its JSON output and the frontend that binds to it are), so `mape`
is modelled from the specification.
-/

/-- Modelled from the spec: the Metric Calculator's `mape` (the engine
implementation is not under the checked-out sources).  Standard mean
absolute percentage error over `(truth, prediction)` pairs; pairs whose
ground truth is `0` are excluded and reported as an excluded count; a
zero-length input is an `EmptyInputError`; when every pair is excluded
the value is absent (`none`) rather than a division by zero. -/
def mape (pairs : List (ℚ × ℚ)) : Except String (Option ℚ × ℕ) :=
  if pairs.isEmpty then .error "EmptyInputError"
  else
    let valid := pairs.filter (fun p => p.1 ≠ 0)
    let excluded := pairs.length - valid.length
    if valid.isEmpty then .ok (none, excluded)
    else .ok (some ((valid.map (fun p => |(p.2 - p.1) / p.1| * 100)).sum / valid.length), excluded)

/-!
## Bias Simulator (modelled from the spec)

The Bias Simulator is likewise absent from the checkout; it is modelled
from §4.2 of the specification: output is
`ground_truth * multiplicative_factor + noise` with the noise drawn from
a bounded distribution seeded deterministically from the Entity
identifier, and `InvalidCalibrationError` on a non-positive factor or a
negative noise standard deviation.
-/

/-- Per-stratum distortion parameters of the Bias Simulator: a
multiplicative factor, an additive-noise standard deviation, and an
optional floor/ceiling clamp. -/
structure DistortionParams where
  factor : ℚ
  noiseSd : ℚ
  clampLo : Option ℚ
  clampHi : Option ℚ
deriving DecidableEq, Repr

/-- A deterministic pseudo-random step (a linear congruential generator)
used to derive the bounded noise from an Entity identifier. -/
def lcg (s : ℕ) : ℕ :=
  (1103515245 * s + 12345) % 2147483648

/-- Modelled from the spec: bounded noise seeded deterministically from
the Entity identifier — a value in `[-sd, sd]` that is a pure function
of the identifier and the standard deviation. -/
def boundedNoise (entityId : ℕ) (sd : ℚ) : ℚ :=
  ((((lcg entityId) % 2001 : ℕ) : ℚ) - 1000) / 1000 * sd

/-- Optional floor/ceiling clamp applied to the synthetic value. -/
def applyClamp (lo hi : Option ℚ) (x : ℚ) : ℚ :=
  let low := match lo with
    | some l => max l x
    | none => x
  match hi with
  | some h => min h low
  | none => low

/-- Modelled from the spec: the Bias Simulator's
`simulate(ground_truth, stratum, distortion_params) -> synthetic_value`
(the engine implementation is not under the checked-out sources).  The
noise is reseeded from the Entity identifier on every call; no state is
read other than the declared arguments. -/
def simulate (groundTruth : ℚ) (stratum : ℕ) (calibration : ℕ → DistortionParams)
    (entityId : ℕ) : Except String ℚ :=
  let p := calibration stratum
  if p.factor ≤ 0 then .error "InvalidCalibrationError"
  else if p.noiseSd < 0 then .error "InvalidCalibrationError"
  else .ok (applyClamp p.clampLo p.clampHi (groundTruth * p.factor + boundedNoise entityId p.noiseSd))

/-- One `simulate` call threaded through an ambient pseudo-random-number
state, the way a stateful engine run would thread a global generator:
the result value is paired with the generator state after the call.
Because the simulator reseeds from the Entity identifier, it does not
consume the ambient stream. -/
def simulateRun (ambientRng : ℕ) (groundTruth : ℚ) (stratum : ℕ)
    (calibration : ℕ → DistortionParams) (entityId : ℕ) : Except String ℚ × ℕ :=
  (simulate groundTruth stratum calibration entityId, ambientRng)

/-!
## Report shapes (src/frontend/src/types.d.ts) and the methodology legend

The frontend type declarations record the JSON field names each report
carries; `OverviewDashboard.renderMethodology` renders the data-source
legend with three dot categories.
-/

/-- Top-level fields of `interface VolumeReport` in `types.d.ts`. -/
def volumeReportFields : List String :=
  ["overall_accuracy", "by_income", "by_race", "scatter_data", "interpretation"]

/-- Fields of `VolumeReport.by_income` (and `by_race` has the same pair
shape with `by_category`). -/
def volumeByIncomeFields : List String :=
  ["by_quintile", "equity_gap"]

/-- Fields of `interface QuintileAccuracy` (one row of
`by_income.by_quintile`). -/
def quintileAccuracyFields : List String :=
  ["quintile", "label", "count", "median_income", "mae", "mape", "bias", "mean_error_pct"]

/-- Fields of `interface RaceCategory` (one row of `by_race.by_category`). -/
def raceCategoryFields : List String :=
  ["category", "count", "mean_minority_pct", "mae", "mape", "bias", "mean_error_pct"]

/-- Top-level fields of `interface CrashReport` in `types.d.ts`. -/
def crashReportFields : List String :=
  ["_provenance", "summary", "error_by_quintile", "findings"]

/-- Fields of `interface CrashQuintileStats` (one value of
`CrashReport.error_by_quintile`). -/
def crashQuintileStatsFields : List String :=
  ["actual_crashes", "ai_predicted_crashes", "mae", "error_pct"]

/-- Fields of `interface AllocationByQuintile` in `types.d.ts` (the
budget-allocation report's per-strategy record). -/
def allocationByQuintileFields : List String :=
  ["by_quintile", "per_capita", "disparate_impact_ratio", "gini_coefficient"]

/-- Fields of `interface Provenance` in `types.d.ts`. -/
def provenanceFields : List String :=
  ["data_type", "real", "simulated", "calibration", "parameters"]

/-- The source-list fields of `Provenance` that name a provenance
category (`real?: string[]` and `simulated?: string[]`; the `calibration`
field is a parameter record, not a category list). -/
def provenanceCategoryListFields : List String :=
  ["real", "simulated"]

/-- Keys of `PipelineMetadata.sources` in `types.d.ts`. -/
def pipelineSourceCategories : List String :=
  ["real", "calibrated", "simulated"]

/-- The data-source legend rendered by
`OverviewDashboard.renderMethodology`: the `methodology-dot` CSS class
and the bold label of each of the three items, in order. -/
def methodologyLegend : List (String × String) :=
  [("real", "Real"), ("modeled", "Modeled"), ("simulated", "Simulated")]

/-- The fixed report schema asserted by the specification's words (§6):
`{summary, by_stratum, equity_gap, findings, _provenance}`.  This
definition follows the spec, for comparison against the field lists
taken from `types.d.ts`. -/
def specFixedSchemaFields : List String :=
  ["summary", "by_stratum", "equity_gap", "findings", "_provenance"]

/-!
## Equity metrics (src/.docs/TEST3_METHODOLOGY.md)

The disparate-impact ratio and Gini coefficient are embedded from the
formulas documented in the methodology file:
`disparate_impact = Q1_per_capita / Q5_per_capita` and
`gini = Σ|xi - xj| / (2n² * mean(x))`.
-/

/-- Per-capita allocation: budget divided by tract population
(`TEST3_METHODOLOGY.md`, "Per Capita Allocation"). -/
def perCapita (budget population : ℚ) : ℚ :=
  budget / population

/-- `disparate_impact = (Q1_per_capita / Q5_per_capita)` from
`TEST3_METHODOLOGY.md`: Q1 is the poorest income quintile and Q5 the
richest, both as per-capita allocations. -/
def disparateImpact (q1PerCapita q5PerCapita : ℚ) : ℚ :=
  q1PerCapita / q5PerCapita

/-- The adverse-impact flag: `< 0.8 indicates adverse impact (EEOC
standard)`. -/
def adverseImpact (ratio : ℚ) : Bool :=
  decide (ratio < 4/5)

/-- The mean of a list of rationals (`mean(x)` in the Gini formula). -/
def meanQ (xs : List ℚ) : ℚ :=
  xs.sum / xs.length

/-- The double sum `Σ|xi - xj|` over all ordered pairs of entries. -/
def sumAbsDiffs (xs : List ℚ) : ℚ :=
  (xs.map (fun a => (xs.map (fun b => |a - b|)).sum)).sum

/-- `gini = Σ|xi - xj| / (2n² * mean(x))` from `TEST3_METHODOLOGY.md`. -/
def gini (xs : List ℚ) : ℚ :=
  sumAbsDiffs xs / (2 * (xs.length : ℚ) ^ 2 * meanQ xs)

/-!
## Theorems
-/

/-- C2 (counterexample): the report shapes the frontend binds to are not
one fixed `{summary, by_stratum, equity_gap, findings, _provenance}`
schema: `VolumeReport` has neither `by_stratum` nor `_provenance` (nor
`summary`/`findings`), and the names `mean_error_pct`,
`disparate_impact_ratio` and `gini_coefficient` are absent from the
crash report's declarations. -/
theorem C2_counterexample :
    volumeReportFields ≠ specFixedSchemaFields ∧
    "by_stratum" ∉ volumeReportFields ∧
    "_provenance" ∉ volumeReportFields ∧
    "summary" ∉ volumeReportFields ∧
    "mean_error_pct" ∉ crashReportFields ∧
    "mean_error_pct" ∉ crashQuintileStatsFields ∧
    "disparate_impact_ratio" ∉ crashReportFields ∧
    "gini_coefficient" ∉ crashReportFields := by
  decide

/-- C2 (amended): each audit report is a single JSON document with a
per-domain schema rather than one fixed shape: the crash report carries
`summary`, `findings` and `_provenance` at top level, the volume report
nests its `equity_gap` under `by_income`/`by_race` and carries
`mean_error_pct` on every per-quintile and per-category row, and
`disparate_impact_ratio` and `gini_coefficient` are bound by the
budget-allocation record, not by every report. -/
theorem C2_per_domain_schemas :
    ("summary" ∈ crashReportFields ∧ "findings" ∈ crashReportFields ∧
      "_provenance" ∈ crashReportFields) ∧
    ("equity_gap" ∈ volumeByIncomeFields ∧
      "mean_error_pct" ∈ quintileAccuracyFields ∧
      "mean_error_pct" ∈ raceCategoryFields) ∧
    ("disparate_impact_ratio" ∈ allocationByQuintileFields ∧
      "gini_coefficient" ∈ allocationByQuintileFields ∧
      "disparate_impact_ratio" ∉ volumeReportFields ∧
      "gini_coefficient" ∉ volumeReportFields) ∧
    ("by_stratum" ∉ crashReportFields ∧ "error_by_quintile" ∈ crashReportFields) := by
  decide

/-- C5 (counterexample): the overview methodology legend displays a
`modeled` category — a tag outside the spec's tri-state
real/calibrated/simulated vocabulary — and the per-report `Provenance`
shape has no `calibrated` value list at all. -/
theorem C5_counterexample :
    ("modeled", "Modeled") ∈ methodologyLegend ∧
    "modeled" ∉ pipelineSourceCategories ∧
    "calibrated" ∉ methodologyLegend.map Prod.fst ∧
    "calibrated" ∉ provenanceFields := by
  decide

/-- C5 (amended): the pipeline metadata's `sources` record uses exactly
the three categories real/calibrated/simulated, and the per-report
`Provenance` shape carries value lists only for `real` and `simulated`
(with a `calibration` parameter record rather than a `calibrated` value
list); the overview methodology legend, however, displays `modeled` as
its middle category in place of `calibrated`. -/
theorem C5_provenance_categories :
    pipelineSourceCategories = ["real", "calibrated", "simulated"] ∧
    provenanceCategoryListFields ⊆ pipelineSourceCategories ∧
    (∀ f ∈ provenanceCategoryListFields, f ∈ provenanceFields) ∧
    methodologyLegend.map Prod.fst = ["real", "modeled", "simulated"] := by
  decide

/-- C6: the disparate-impact ratio is the poorest stratum's per-capita
allocation over the richest stratum's; when the poorest stratum is the
lowest-resourced (its per-capita value does not exceed the richest's)
this is exactly lowest/highest; it is computed on per-capita values
(budget over population), equals `0.2` on the two-stratum case with
per-capita values `10` and `50`, and every ratio below `0.80` is flagged
as adverse impact. -/
theorem C6_disparate_impact :
    (∀ q1pc q5pc : ℚ, q1pc ≤ q5pc →
      disparateImpact q1pc q5pc = min q1pc q5pc / max q1pc q5pc) ∧
    (∀ b1 p1 b5 p5 : ℚ,
      disparateImpact (perCapita b1 p1) (perCapita b5 p5) = (b1 / p1) / (b5 / p5)) ∧
    disparateImpact 10 50 = 1/5 ∧
    adverseImpact (1/5) = true ∧
    (∀ r : ℚ, r < 4/5 → adverseImpact r = true) ∧
    (∀ r : ℚ, 4/5 ≤ r → adverseImpact r = false) := by
  refine ⟨?_, ?_, ?_, ?_, ?_, ?_⟩
  · intro q1pc q5pc h
    rw [min_eq_left h, max_eq_right h, disparateImpact]
  · intro b1 p1 b5 p5
    rfl
  · norm_num [disparateImpact]
  · norm_num [adverseImpact]
  · intro r h
    simpa [adverseImpact]
  · intro r h
    simp [adverseImpact]
    linarith

/-- C6 (witness): the general parts of `C6_disparate_impact`
instantiated at the spec's two-stratum example. -/
theorem C6_witness :
    disparateImpact 10 50 = min 10 50 / max 10 50 ∧
    disparateImpact (perCapita 20 2) (perCapita 100 2) = (20 / 2) / (100 / 2) ∧
    adverseImpact (1/5) = true ∧
    adverseImpact (9/10) = false :=
  ⟨C6_disparate_impact.1 10 50 (by norm_num),
   C6_disparate_impact.2.1 20 2 100 2,
   C6_disparate_impact.2.2.2.1,
   C6_disparate_impact.2.2.2.2.2 (9/10) (by norm_num)⟩

/-- C8: evaluating the metrics-card rendering at the degenerate
`r_squared = null` case.  The card rendering throws a `TypeError`
(evaluating `null.toFixed(3)`) instead of treating `null` as
"undefined"; on any non-null value it renders the value with the
`> 0.7` classification; and the classification expression, applied to
the number JavaScript coerces `null` to, classifies it as
`Weak correlation` — i.e. the caller's comparison treats `null` like
zero rather than like "undefined". -/
theorem C8_null_r_squared :
    renderRSquaredCard none = .error "TypeError" ∧
    (∀ r : ℚ, renderRSquaredCard (some r) = .ok (r, classifyRSquared r)) ∧
    classifyRSquared jsNullToNumber = "Weak correlation" := by
  refine ⟨rfl, fun r => rfl, by norm_num [classifyRSquared, jsNullToNumber]⟩

/-- C4: `simulate` is a deterministic function of its declared inputs
(ground truth, stratum, calibration table, Entity identifier).  The
ambient pseudo-random-number state a stateful run would thread is not
consulted: two runs from different ambient states produce identical
results, and running `simulate` a second time from the state left by the
first run reproduces the first result bit for bit. -/
theorem C4_simulate_deterministic :
    ∀ (a1 a2 : ℕ) (gt : ℚ) (s : ℕ) (cal : ℕ → DistortionParams) (eid : ℕ),
      (simulateRun a1 gt s cal eid).1 = (simulateRun a2 gt s cal eid).1 ∧
      (simulateRun (simulateRun a1 gt s cal eid).2 gt s cal eid).1
        = (simulateRun a1 gt s cal eid).1 := by
  intro a1 a2 gt s cal eid
  exact ⟨rfl, rfl⟩

/-- C3 (counterexample): the per-counter percent-error computation of
`renderErrorStripChart` is applied to every scatter point, including a
pair with ground truth `0`: on `[(0, 5)]` it produces a point with value
`Infinity`, whereas a computation applied only to pairs with nonzero
truth would produce no point at all. -/
theorem C3_counterexample :
    stripErrorPoints [(0, 5)] = [JSNum.inf] ∧
    ([((0:ℚ), (5:ℚ))].filter (fun p => p.1 ≠ 0)).length = 0 ∧
    (stripErrorPoints [(0, 5)]).length ≠
      ([((0:ℚ), (5:ℚ))].filter (fun p => p.1 ≠ 0)).length := by
  refine ⟨?_, by decide, ?_⟩
  · norm_num [stripErrorPoints, stripErrorPct, jsDiv, jsMulPos]
  · decide

/-- C9: `DurhamMap.getColor` is total on the default colour scale: it
returns the gray no-data colour exactly for `null`/`undefined`; for
every finite numeric value it returns the colour of the first scale
entry whose `max` bound is at least the value (the final `Infinity`
bound guarantees a match), and even `NaN` — for which every comparison
fails — receives the final colour through the trailing fallback. -/
theorem C9_getColor_total :
    getColor none getDefaultColorScale = "#c7c7cc" ∧
    (∀ v : JSNum, getColor (some v) getDefaultColorScale ≠ "#c7c7cc") ∧
    (∀ q : ℚ, getColor (some (.num q)) getDefaultColorScale =
      if q ≤ -20 then "#b35806" else if q ≤ -10 then "#f1a340"
      else if q ≤ -5 then "#fee0b6" else if q ≤ 5 then "#d8daeb"
      else if q ≤ 10 then "#998ec3" else "#542788") ∧
    getColor (some .nan) getDefaultColorScale = "#542788" := by
  have hnum : ∀ q : ℚ, getColor (some (.num q)) getDefaultColorScale =
      if q ≤ -20 then "#b35806" else if q ≤ -10 then "#f1a340"
      else if q ≤ -5 then "#fee0b6" else if q ≤ 5 then "#d8daeb"
      else if q ≤ 10 then "#998ec3" else "#542788" := by
    intro q
    by_cases h1 : q ≤ -20
    · simp [getColor, getDefaultColorScale, List.find?, jsLe, h1]
    · by_cases h2 : q ≤ -10
      · simp [getColor, getDefaultColorScale, List.find?, jsLe, h1, h2]
      · by_cases h3 : q ≤ -5
        · simp [getColor, getDefaultColorScale, List.find?, jsLe, h1, h2, h3]
        · by_cases h4 : q ≤ 5
          · simp [getColor, getDefaultColorScale, List.find?, jsLe, h1, h2, h3, h4]
          · by_cases h5 : q ≤ 10
            · simp [getColor, getDefaultColorScale, List.find?, jsLe, h1, h2, h3, h4, h5]
            · simp [getColor, getDefaultColorScale, List.find?, jsLe, h1, h2, h3, h4, h5]
  refine ⟨rfl, ?_, hnum, by decide⟩
  intro v
  cases v with
  | num q =>
    rw [hnum q]
    split_ifs <;> decide
  | nan => decide
  | inf => decide
  | ninf => decide

/-- Splitting a list's length between the pairs kept and the pairs
excluded by the zero-truth filter. -/
theorem length_sub_filter_ne_zero (l : List (ℚ × ℚ)) :
    l.length - (l.filter (fun p => p.1 ≠ 0)).length
      = (l.filter (fun p => p.1 = 0)).length := by
  induction l with
  | nil => rfl
  | cons a l ih =>
    have h3 := List.length_filter_le (fun p => decide (p.1 ≠ 0)) l
    by_cases ha : a.1 = 0
    · have h1 : ((a :: l).filter (fun p => p.1 ≠ 0)) = l.filter (fun p => p.1 ≠ 0) := by
        simp [List.filter_cons, ha]
      have h2 : ((a :: l).filter (fun p => p.1 = 0))
          = a :: l.filter (fun p => p.1 = 0) := by
        simp [List.filter_cons, ha]
      rw [h1, h2, List.length_cons, List.length_cons]
      omega
    · have h1 : ((a :: l).filter (fun p => p.1 ≠ 0))
          = a :: l.filter (fun p => p.1 ≠ 0) := by
        simp [List.filter_cons, ha]
      have h2 : ((a :: l).filter (fun p => p.1 = 0)) = l.filter (fun p => p.1 = 0) := by
        simp [List.filter_cons, ha]
      rw [h1, h2, List.length_cons, List.length_cons]
      omega

/-- C3 (amended): the (spec-modelled) `mape` excludes exactly the
zero-truth pairs, reports their number as the excluded count, and the
per-pair percent error inside `mape` is applied only to pairs with
nonzero truth (never dividing by a zero ground truth); on `[(0, 5)]` the
pair is excluded and reported as one excluded sample with no value; the
frontend strip chart's per-counter percent error, by contrast, produces
a point for every pair — including zero-truth pairs. -/
theorem C3_mape_excludes_zero_truth :
    (∀ pairs : List (ℚ × ℚ), pairs ≠ [] → ∀ v exc, mape pairs = .ok (v, exc) →
      exc = (pairs.filter (fun p => p.1 = 0)).length ∧
      (∀ p ∈ pairs.filter (fun p => p.1 ≠ 0), p.1 ≠ 0) ∧
      (pairs.filter (fun p => p.1 ≠ 0) = [] → v = none) ∧
      (pairs.filter (fun p => p.1 ≠ 0) ≠ [] →
        v = some (((pairs.filter (fun p => p.1 ≠ 0)).map
            (fun p => |(p.2 - p.1) / p.1| * 100)).sum
          / ((pairs.filter (fun p => p.1 ≠ 0)).length : ℚ)))) ∧
    mape [(0, 5)] = .ok (none, 1) ∧
    mape [(100, 110), (50, 55)] = .ok (some 10, 0) ∧
    (∀ data : List (ℚ × ℚ), (stripErrorPoints data).length = data.length) := by
  refine ⟨?_, by norm_num [mape, List.filter], by norm_num [mape, List.filter, abs],
    fun data => List.length_map data _⟩
  intro pairs hne v exc h
  rw [mape] at h
  rw [if_neg (by simpa [List.isEmpty_iff] using hne)] at h
  by_cases hv : (pairs.filter (fun p => p.1 ≠ 0)).isEmpty
  · rw [if_pos hv] at h
    simp only [Except.ok.injEq, Prod.mk.injEq] at h
    obtain ⟨hv1, hv2⟩ := h
    refine ⟨?_, fun p hp => by simpa using List.of_mem_filter hp, ?_, ?_⟩
    · rw [← hv2, length_sub_filter_ne_zero]
    · intro _
      exact hv1.symm
    · intro hcon
      exact absurd (List.isEmpty_iff.mp hv) hcon
  · rw [if_neg hv] at h
    simp only [Except.ok.injEq, Prod.mk.injEq] at h
    obtain ⟨hv1, hv2⟩ := h
    refine ⟨?_, fun p hp => by simpa using List.of_mem_filter hp, ?_, ?_⟩
    · rw [← hv2, length_sub_filter_ne_zero]
    · intro hcon
      exact absurd hcon (by simpa [List.isEmpty_iff] using hv)
    · intro _
      exact hv1.symm

/-- C3 (witness): `C3_mape_excludes_zero_truth` instantiated at
`[(0, 5)]`: the excluded count `1` is the number of zero-truth pairs,
while the strip chart still emits one point for the same input. -/
theorem C3_witness :
    1 = ([((0:ℚ), (5:ℚ))].filter (fun p => p.1 = 0)).length ∧
    (stripErrorPoints [((0:ℚ), (5:ℚ))]).length = 1 :=
  ⟨(C3_mape_excludes_zero_truth.1 [(0, 5)] (by simp) none 1
      C3_mape_excludes_zero_truth.2.1).1,
   C3_mape_excludes_zero_truth.2.2.2 [(0, 5)]⟩

/-- The quantile cut positions start at `0`. -/
theorem cutPoint_zero (n c : ℕ) : cutPoint n c 0 = 0 := by
  simp [cutPoint]

/-- The quantile cut positions end at `n`. -/
theorem cutPoint_last (n c : ℕ) (hc : 0 < c) : cutPoint n c c = n := by
  simp [cutPoint, Nat.mul_div_cancel_left n hc]

/-- The quantile cut positions are monotone in the stratum index. -/
theorem cutPoint_mono (n c : ℕ) {k j : ℕ} (h : k ≤ j) :
    cutPoint n c k ≤ cutPoint n c j :=
  Nat.div_le_div_right (Nat.mul_le_mul_right n h)

/-- Every cut position for an index at most `c` stays within `n`. -/
theorem cutPoint_le (n c k : ℕ) (hk : k ≤ c) (hc : 0 < c) :
    cutPoint n c k ≤ n := by
  calc cutPoint n c k ≤ cutPoint n c c := cutPoint_mono n c hk
    _ = n := cutPoint_last n c hc

/-- Lower bound on a stratum size: at least `n / c`. -/
theorem strataSize_lower (n c k : ℕ) : n / c ≤ strataSize n c k := by
  have h : k * n / c + n / c ≤ (k * n + n) / c := Nat.add_div_le_add_div (k * n) n c
  have h2 : (k + 1) * n = k * n + n := by ring
  simp only [strataSize, cutPoint, h2]
  omega

/-- Upper bound on a stratum size: at most `n / c + 1`. -/
theorem strataSize_upper (n c k : ℕ) (hc : 0 < c) :
    strataSize n c k ≤ n / c + 1 := by
  have h2 : (k + 1) * n = k * n + n := by ring
  have h : (k * n + n) / c ≤ k * n / c + n / c + 1 := by
    rw [Nat.add_div hc]
    split <;> omega
  simp only [strataSize, cutPoint, h2]
  exact Nat.sub_le_of_le_add (by omega)

/-- The concatenation of the first `m` quantile-cut slices of a list is
its prefix up to the `m`-th cut position. -/
theorem join_strata_take (xs : List ℚ) (c m : ℕ) :
    (((List.range m).map
        (fun k => (xs.drop (cutPoint xs.length c k)).take (strataSize xs.length c k))).flatten)
      = xs.take (cutPoint xs.length c m) := by
  induction m with
  | zero => simp [cutPoint_zero]
  | succ m ih =>
    rw [List.range_succ, List.map_append, List.flatten_append, ih]
    simp only [List.map_cons, List.map_nil, List.flatten_cons, List.flatten_nil, List.append_nil]
    have hmono : cutPoint xs.length c m ≤ cutPoint xs.length c (m + 1) :=
      cutPoint_mono xs.length c (Nat.le_succ m)
    rw [strataSize, ← List.take_add]
    congr 1
    omega

/-- C1 (counterexample): cutting at the overview map's quantile
positions does not send the remainder to the lowest-indexed groups.  For
6 entities in 5 strata the quantile-position cut produces group sizes
`[1, 1, 1, 1, 2]` — the extra member lands in the highest-indexed
stratum — whereas a remainder distributed to the lowest-indexed groups
would give `[2, 1, 1, 1, 1]`. -/
theorem C1_counterexample :
    5 ≤ 6 ∧
    stratify [1, 2, 3, 4, 5, 6] 5 = [[1], [2], [3], [4], [5, 6]] ∧
    (stratify [1, 2, 3, 4, 5, 6] 5).map List.length = [1, 1, 1, 1, 2] ∧
    ([1, 1, 1, 1, 2] : List ℕ) ≠ [2, 1, 1, 1, 1] ∧
    strataSize 6 5 0 = 1 ∧ strataSize 6 5 4 = 2 := by
  refine ⟨by decide, by decide, by decide, by decide, by decide, by decide⟩

/-- C1 (amended): for every attribute list of length at least
`strata_count`, sorting ascending and cutting at the quantile positions
(`Math.floor(n * k / c)`, as the overview map's quintile-break
computation does) yields exactly `strata_count` groups whose
concatenation is a permutation of the input (every entity appears
exactly once), each group nonempty with size between `n / c` and
`n / c + 1` (so sizes differ pairwise by at most one); any remainder
lands in the groups the floor cut positions dictate — higher-indexed
groups — not the lowest-indexed ones. -/
theorem C1_quantile_cut_partition (xs : List ℚ) (c : ℕ) (hc : 0 < c)
    (hn : c ≤ xs.length) :
    (stratify xs c).length = c ∧
    (stratify xs c).flatten.Perm xs ∧
    (∀ g ∈ stratify xs c,
      xs.length / c ≤ g.length ∧ g.length ≤ xs.length / c + 1 ∧ g ≠ []) ∧
    (∀ g1 ∈ stratify xs c, ∀ g2 ∈ stratify xs c, g1.length ≤ g2.length + 1) := by
  have hlen : (xs.insertionSort (· ≤ ·)).length = xs.length :=
    List.length_insertionSort _ xs
  have hsize : ∀ g ∈ stratify xs c,
      xs.length / c ≤ g.length ∧ g.length ≤ xs.length / c + 1 ∧ g ≠ [] := by
    intro g hg
    simp only [stratify, strataOf, List.mem_map, List.mem_range] at hg
    obtain ⟨k, hk, rfl⟩ := hg
    have hcut : cutPoint xs.length c (k + 1) ≤ xs.length :=
      cutPoint_le xs.length c (k + 1) hk hc
    have hglen :
        (((xs.insertionSort (· ≤ ·)).drop
            (cutPoint (xs.insertionSort (· ≤ ·)).length c k)).take
          (strataSize (xs.insertionSort (· ≤ ·)).length c k)).length
          = strataSize xs.length c k := by
      rw [List.length_take, List.length_drop, hlen]
      have : strataSize xs.length c k ≤ xs.length - cutPoint xs.length c k := by
        have := cutPoint_mono xs.length c (Nat.le_succ k)
        simp only [strataSize]
        omega
      omega
    refine ⟨?_, ?_, ?_⟩
    · rw [hglen]; exact strataSize_lower xs.length c k
    · rw [hglen]; exact strataSize_upper xs.length c k hc
    · have h1 : 1 ≤ xs.length / c := (Nat.one_le_div_iff hc).mpr hn
      have := strataSize_lower xs.length c k
      rw [← List.length_pos, hglen]
      omega
  refine ⟨?_, ?_, hsize, ?_⟩
  · simp [stratify, strataOf]
  · have hflat : (stratify xs c).flatten = xs.insertionSort (· ≤ ·) := by
      simp only [stratify, strataOf]
      rw [join_strata_take (xs.insertionSort (· ≤ ·)) c c]
      rw [hlen, cutPoint_last xs.length c hc, ← hlen, List.take_length]
    rw [hflat]
    exact List.perm_insertionSort _ xs
  · intro g1 hg1 g2 hg2
    have h1 := (hsize g1 hg1).2.1
    have h2 := (hsize g2 hg2).1
    omega

/-- C1 (witness): `C1_quantile_cut_partition` instantiated on six
attribute values in five strata. -/
theorem C1_witness :
    (stratify [3, 1, 2, 5, 4, 6] 5).length = 5 ∧
    (stratify [3, 1, 2, 5, 4, 6] 5).flatten.Perm [3, 1, 2, 5, 4, 6] :=
  ⟨(C1_quantile_cut_partition [3, 1, 2, 5, 4, 6] 5 (by decide) (by decide)).1,
   (C1_quantile_cut_partition [3, 1, 2, 5, 4, 6] 5 (by decide) (by decide)).2.1⟩

/-- Bound on one inner row of the Gini double sum: for a nonnegative
pivot `a` and nonnegative entries, `Σ_b |a - b| ≤ n*a + Σ_b b`. -/
theorem inner_abs_sum_le (a : ℚ) (ha : 0 ≤ a) :
    ∀ ys : List ℚ, (∀ y ∈ ys, 0 ≤ y) →
      (ys.map (fun b => |a - b|)).sum ≤ ys.length * a + ys.sum := by
  intro ys
  induction ys with
  | nil => intro _; simp
  | cons y ys ih =>
    intro hys
    have hy : 0 ≤ y := hys y (List.mem_cons_self y ys)
    have habs : |a - y| ≤ a + y := abs_le.mpr ⟨by linarith, by linarith⟩
    have h2 := ih (fun z hz => hys z (List.mem_cons_of_mem y hz))
    simp only [List.map_cons, List.sum_cons, List.length_cons]
    push_cast
    linarith

/-- Bound on the full Gini double sum over two lists of nonnegative
entries. -/
theorem outer_abs_sum_le (inn : List ℚ) (hinn : ∀ y ∈ inn, 0 ≤ y) :
    ∀ out : List ℚ, (∀ x ∈ out, 0 ≤ x) →
      (out.map (fun a => (inn.map (fun b => |a - b|)).sum)).sum
        ≤ inn.length * out.sum + out.length * inn.sum := by
  intro out
  induction out with
  | nil => intro _; simp
  | cons a out ih =>
    intro hout
    have ha : 0 ≤ a := hout a (List.mem_cons_self a out)
    have h1 := inner_abs_sum_le a ha inn hinn
    have h2 := ih (fun z hz => hout z (List.mem_cons_of_mem a hz))
    simp only [List.map_cons, List.sum_cons, List.length_cons]
    push_cast
    nlinarith [h1, h2]

/-- `Σᵢⱼ |xi - xj| ≤ 2 n Σ x` for nonnegative entries. -/
theorem sumAbsDiffs_le (xs : List ℚ) (h : ∀ x ∈ xs, 0 ≤ x) :
    sumAbsDiffs xs ≤ 2 * xs.length * xs.sum := by
  have := outer_abs_sum_le xs h xs h
  rw [sumAbsDiffs]
  linarith

/-- The Gini double sum is a sum of absolute values, hence nonnegative. -/
theorem sumAbsDiffs_nonneg (xs : List ℚ) : 0 ≤ sumAbsDiffs xs := by
  apply List.sum_nonneg
  intro t ht
  obtain ⟨a, _, rfl⟩ := List.mem_map.mp ht
  apply List.sum_nonneg
  intro u hu
  obtain ⟨b, _, rfl⟩ := List.mem_map.mp hu
  exact abs_nonneg _

/-- C7: the documented Gini formula `Σ|xi - xj| / (2n² * mean(x))` lies
in `[0, 1]` for every non-empty array of nonnegative values with
positive mean, and is exactly `0` on every constant positive array. -/
theorem C7_gini_range_and_uniform :
    (∀ xs : List ℚ, xs ≠ [] → (∀ x ∈ xs, 0 ≤ x) → 0 < meanQ xs →
      0 ≤ gini xs ∧ gini xs ≤ 1) ∧
    (∀ (n : ℕ) (c : ℚ), 0 < n → 0 < c → gini (List.replicate n c) = 0) := by
  constructor
  · intro xs hne hx hm
    have hn : 0 < (xs.length : ℚ) := by
      have := List.length_pos.mpr hne
      exact_mod_cast this
    have hS : 0 < xs.sum := by
      rw [meanQ] at hm
      rcases div_pos_iff.mp hm with ⟨h1, _⟩ | ⟨_, h2⟩
      · exact h1
      · linarith
    have hD : 2 * (xs.length : ℚ) ^ 2 * meanQ xs = 2 * (xs.length : ℚ) * xs.sum := by
      rw [meanQ]
      field_simp
      ring
    have hDpos : 0 < 2 * (xs.length : ℚ) * xs.sum := by positivity
    rw [gini, hD]
    constructor
    · exact div_nonneg (sumAbsDiffs_nonneg xs) (le_of_lt hDpos)
    · exact (div_le_one hDpos).mpr (sumAbsDiffs_le xs hx)
  · intro n c hn hc
    have h0 : sumAbsDiffs (List.replicate n c) = 0 := by
      simp [sumAbsDiffs, List.map_replicate, List.sum_replicate]
    rw [gini, h0, zero_div]

/-- C7 (witness): `C7_gini_range_and_uniform` instantiated on a concrete
unequal array and on a constant array. -/
theorem C7_witness :
    (0 ≤ gini [1, 2, 3] ∧ gini [1, 2, 3] ≤ 1) ∧ gini (List.replicate 3 (5:ℚ)) = 0 :=
  ⟨C7_gini_range_and_uniform.1 [1, 2, 3] (by simp) (by norm_num)
      (by norm_num [meanQ]),
   C7_gini_range_and_uniform.2 3 5 (by norm_num) (by norm_num)⟩

/-- C10: for every non-empty sorted income array, the overview map's
`quantile(arr, q) = arr[Math.floor(arr.length * q)]` indexes within
bounds at each of `q ∈ {0.2, 0.4, 0.6, 0.8}` (so each break is an
element of the array), and the four breaks are non-decreasing. -/
theorem C10_quantile_breaks (arr : List ℚ) (hne : arr ≠ [])
    (hs : arr.Sorted (· ≤ ·)) :
    (∀ q ∈ breakProbs, Int.toNat ⌊(arr.length : ℚ) * q⌋ < arr.length ∧
      ∃ v, quantile arr q = some v ∧ v ∈ arr) ∧
    (∀ q ∈ breakProbs, ∀ r ∈ breakProbs, q ≤ r →
      ∀ v w, quantile arr q = some v → quantile arr r = some w → v ≤ w) := by
  have hn : 0 < arr.length := List.length_pos.mpr hne
  have hnq : 0 < (arr.length : ℚ) := by exact_mod_cast hn
  have hidx : ∀ q ∈ breakProbs, Int.toNat ⌊(arr.length : ℚ) * q⌋ < arr.length := by
    intro q hq
    have hq1 : q < 1 := by fin_cases hq <;> norm_num
    have hfl : ⌊(arr.length : ℚ) * q⌋ < (arr.length : ℤ) := by
      rw [Int.floor_lt]
      push_cast
      exact mul_lt_of_lt_one_right hnq hq1
    omega
  constructor
  · intro q hq
    have h := hidx q hq
    exact ⟨h, arr.get ⟨_, h⟩, List.get?_eq_get h, List.get_mem _ _ _⟩
  · intro q hq r hr hqr v w hv hw
    have hq0 : 0 ≤ q := by fin_cases hq <;> norm_num
    have hiq := hidx q hq
    have hir := hidx r hr
    have hmono : Int.toNat ⌊(arr.length : ℚ) * q⌋
        ≤ Int.toNat ⌊(arr.length : ℚ) * r⌋ := by
      have := Int.floor_le_floor (mul_le_mul_of_nonneg_left hqr (le_of_lt hnq))
      omega
    rw [quantile, List.get?_eq_get hiq] at hv
    rw [quantile, List.get?_eq_get hir] at hw
    obtain rfl : v = arr.get ⟨_, hiq⟩ := (Option.some.inj hv).symm
    obtain rfl : w = arr.get ⟨_, hir⟩ := (Option.some.inj hw).symm
    rcases eq_or_lt_of_le hmono with heq | hlt
    · have hfe : (⟨_, hiq⟩ : Fin arr.length) = ⟨_, hir⟩ := Fin.ext heq
      rw [hfe]
    · exact List.pairwise_iff_get.mp hs ⟨_, hiq⟩ ⟨_, hir⟩ (Fin.mk_lt_mk.mpr hlt)

/-- C10 (witness): `C10_quantile_breaks` on the sorted array `[1, 2, 3]`:
the `q = 0.2` index is in bounds and the `0.2` break is at most the
`0.8` break (`1 ≤ 3`). -/
theorem C10_witness :
    Int.toNat ⌊(([(1:ℚ), 2, 3]).length : ℚ) * (1/5)⌋ < ([(1:ℚ), 2, 3]).length ∧
    (1:ℚ) ≤ 3 := by
  have hq1 : quantile [1, 2, 3] (1/5) = some 1 := by
    rw [quantile]
    norm_num
  have hq4 : quantile [1, 2, 3] (4/5) = some 3 := by
    rw [quantile]
    norm_num
    rfl
  constructor
  · exact ((C10_quantile_breaks [1, 2, 3] (by simp) (by decide)).1
      (1/5) (by norm_num [breakProbs])).1
  · exact (C10_quantile_breaks [1, 2, 3] (by simp) (by decide)).2
      (1/5) (by norm_num [breakProbs]) (4/5) (by norm_num [breakProbs])
      (by norm_num) 1 3 hq1 hq4

/-- C9 (witness): `C9_getColor_total` instantiated: `null` maps to gray
and the concrete value `3` does not. -/
theorem C9_witness :
    getColor none getDefaultColorScale = "#c7c7cc" ∧
    getColor (some (.num 3)) getDefaultColorScale ≠ "#c7c7cc" :=
  ⟨C9_getColor_total.1, C9_getColor_total.2.1 (.num 3)⟩

/-- C4 (witness): `C4_simulate_deterministic` instantiated at a concrete
calibration: two runs from different ambient generator states agree. -/
theorem C4_witness :
    (simulateRun 0 100 1 (fun s => ⟨1 + s, 0, none, none⟩) 42).1
      = (simulateRun 7 100 1 (fun s => ⟨1 + s, 0, none, none⟩) 42).1 :=
  (C4_simulate_deterministic 0 7 100 1 (fun s => ⟨1 + s, 0, none, none⟩) 42).1
